import Mathlib

/-!
Shallow embedding of the tfjs-data CSV reading subsystem.

The visible source (`src/readers.ts`) contains only the public factory
function `csv`, which wraps a `URLDataSource` and a `CSVConfig` into a
`CSVDataset`.  The decoding engine itself (line splitter, field tokenizer,
schema resolver, row decoder, dataset composition) is not under `src/`, so
it is modelled from the specification, component by component; each such
definition carries a doc comment starting with `Modelled from the spec:`.

Bytes are modelled as characters; a byte chunk is a `List Char`.
-/

namespace TfData

/-- Modelled from the spec: the four column data types of the data model
(`dtype: enum{Int, Float, Bool, String}` is absent from src/). -/
inductive DType where
  | int
  | float
  | bool
  | str
deriving DecidableEq, Repr

/-- Modelled from the spec: a typed cell value of one of the four dtypes.
Float values are represented exactly as rationals, since the decimal
literals the parser accepts all denote rationals. -/
inductive CellValue where
  | intVal (i : Int)
  | floatVal (q : Rat)
  | boolVal (b : Bool)
  | strVal (s : String)
deriving DecidableEq, Repr

/-- Modelled from the spec: the kinds of `MalformedRowError`
(unterminated quote, field-count mismatch), absent from src/. -/
inductive MalformedKind where
  | unterminatedQuote
  | fieldCountMismatch (expected : Nat) (actual : Nat)
deriving DecidableEq, Repr

/-- Modelled from the spec: the error taxonomy of section 7
(`ConfigError`, `MalformedRowError`, `RequiredColumnError`,
`TypeCoercionError`), absent from src/. -/
inductive CSVError where
  | configError (msg : String)
  | malformedRowError (lineIndex : Nat) (kind : MalformedKind)
  | requiredColumnError (column : String)
  | typeCoercionError (column : String) (raw : String) (target : DType)
deriving DecidableEq, Repr

/-- Digit list to natural number. -/
def digitsToNat (cs : List Char) : Nat :=
  cs.foldl (fun a c => a * 10 + (c.toNat - 48)) 0

/-- Modelled from the spec: integer numeric parse (optional sign followed
by at least one digit); the Int coercion of the row decoder is absent
from src/. -/
def parseIntOpt (s : String) : Option Int :=
  let cs := s.toList
  let signed : Bool × List Char :=
    match cs with
    | '-' :: r => (true, r)
    | '+' :: r => (false, r)
    | _ => (false, cs)
  let ds := signed.2
  if ds ≠ [] ∧ ds.all Char.isDigit then
    some (if signed.1 then -(digitsToNat ds : Int) else (digitsToNat ds : Int))
  else none

/-- Modelled from the spec: floating-point numeric parse (optional sign,
decimal digits with at most one decimal point, at least one digit); the
Float coercion of the row decoder is absent from src/.  The parsed value
is kept exactly as a rational. -/
def parseFloatOpt (s : String) : Option Rat :=
  let cs := s.toList
  let signed : Bool × List Char :=
    match cs with
    | '-' :: r => (true, r)
    | '+' :: r => (false, r)
    | _ => (false, cs)
  let body := signed.2
  let intPart := body.takeWhile (fun c => c ≠ '.')
  let rest := body.dropWhile (fun c => c ≠ '.')
  let ok : Bool × Int × Nat :=
    match rest with
    | [] =>
      (decide (intPart ≠ []) && intPart.all Char.isDigit,
       (digitsToNat intPart : Int), 1)
    | _ :: frac =>
      (decide ((intPart ++ frac) ≠ []) && intPart.all Char.isDigit
         && frac.all Char.isDigit && decide ('.' ∉ frac),
       (digitsToNat intPart * 10 ^ frac.length + digitsToNat frac : Int),
       10 ^ frac.length)
  if ok.1 then some (mkRat (if signed.1 then -ok.2.1 else ok.2.1) ok.2.2) else none

/-- Lower-case a string character by character (kept away from
`String.toLower`, which is opaque to evaluation inside proofs). -/
def lowerChars (s : String) : List Char :=
  s.toList.map Char.toLower

/-- Modelled from the spec: Bool coercion via a fixed literal set —
`"true"`/`"false"` case-insensitive, or numeric `1`/`0`; absent from
src/. -/
def parseBoolOpt (s : String) : Option Bool :=
  if lowerChars s = "true".toList ∨ s = "1" then some true
  else if lowerChars s = "false".toList ∨ s = "0" then some false
  else none

/-- Modelled from the spec: whether a raw string coerces to a dtype. -/
def parsesAs (t : DType) (v : String) : Bool :=
  match t with
  | DType.int => (parseIntOpt v).isSome
  | DType.float => (parseFloatOpt v).isSome
  | DType.bool => (parseBoolOpt v).isSome
  | DType.str => true

/-- Modelled from the spec: the mode of the Field Tokenizer state machine
— outside any quoted run, inside a quoted run, or having just seen a
double quote inside a quoted run (which either escapes a second quote or
closes the run). -/
inductive TokMode where
  | outside
  | inQuote
  | quoteSeen
deriving DecidableEq, Repr

/-- Modelled from the spec: the core of the Field Tokenizer, absent from
src/.  `cur` holds the characters of the field being built, `acc` the
completed fields.  Outside quotes a double quote opens a quoted run, the
delimiter ends a field, and every other character is taken verbatim;
inside quotes a doubled double-quote decodes to one literal quote, a
single double-quote closes the run, and every other character (delimiter
and newline included) is content.  A quoted run still open at end of line
fails with the unterminated-quote kind. -/
def tokAux (delim : Char) : TokMode → List Char → List (List Char) →
    List Char → Except MalformedKind (List (List Char))
  | mode, cur, acc, [] =>
    if mode = TokMode.inQuote then Except.error MalformedKind.unterminatedQuote
    else Except.ok (acc ++ [cur])
  | TokMode.outside, cur, acc, c :: rest =>
    if c = '"' then tokAux delim TokMode.inQuote cur acc rest
    else if c = delim then tokAux delim TokMode.outside [] (acc ++ [cur]) rest
    else tokAux delim TokMode.outside (cur ++ [c]) acc rest
  | TokMode.inQuote, cur, acc, c :: rest =>
    if c = '"' then tokAux delim TokMode.quoteSeen cur acc rest
    else tokAux delim TokMode.inQuote (cur ++ [c]) acc rest
  | TokMode.quoteSeen, cur, acc, c :: rest =>
    if c = '"' then tokAux delim TokMode.inQuote (cur ++ ['"']) acc rest
    else if c = delim then tokAux delim TokMode.outside [] (acc ++ [cur]) rest
    else tokAux delim TokMode.outside (cur ++ [c]) acc rest

/-- Modelled from the spec: the Field Tokenizer — splits one logical line
into ordered raw fields using the configured delimiter, honoring quoting
and escaped quotes; absent from src/. -/
def tokenizeLine (delim : Char) (line : List Char) : Except MalformedKind (List String) :=
  (tokAux delim TokMode.outside [] [] line).map (fun fs => fs.map (fun f => String.mk f))

/-- Modelled from the spec: the Line Splitter state — completed logical
lines, the buffered unterminated tail, and the quote state tracked across
chunk boundaries; absent from src/. -/
structure SplitState where
  doneLines : List (List Char)
  buf : List Char
  inQuote : Bool
deriving DecidableEq, Repr

/-- Drop a trailing carriage return so that CRLF terminators also end a
line cleanly. -/
def stripCR (l : List Char) : List Char :=
  if l.getLast? = some '\r' then l.dropLast else l

/-- Modelled from the spec: one character step of the Line Splitter.  A
double quote toggles the quote state; a newline outside quotes completes
the buffered logical line; everything else is buffered. -/
def splitStep (st : SplitState) (c : Char) : SplitState :=
  if c = '"' then SplitState.mk st.doneLines (st.buf ++ ['"']) (!st.inQuote)
  else if c = '\n' ∧ st.inQuote = false then
    SplitState.mk (st.doneLines ++ [stripCR st.buf]) [] false
  else SplitState.mk st.doneLines (st.buf ++ [c]) st.inQuote

/-- Modelled from the spec: feeding one byte chunk into the Line Splitter. -/
def feedChunk (st : SplitState) (chunk : List Char) : SplitState :=
  chunk.foldl splitStep st

/-- Initial Line Splitter state. -/
def initSplit : SplitState := SplitState.mk [] [] false

/-- Modelled from the spec: at end of input, a final chunk lacking a
trailing terminator yields one last line instead of being dropped. -/
def finishSplit (st : SplitState) : List (List Char) :=
  if st.buf = [] then st.doneLines else st.doneLines ++ [stripCR st.buf]

/-- Modelled from the spec: the Line Splitter — consumes the lazy sequence
of byte chunks and produces the sequence of complete logical lines;
absent from src/. -/
def splitChunks (chunks : List (List Char)) : List (List Char) :=
  finishSplit (chunks.foldl feedChunk initSplit)

instance {ε α : Type} [DecidableEq ε] [DecidableEq α] : DecidableEq (Except ε α) := fun x y =>
  match x, y with
  | Except.ok a, Except.ok b => decidable_of_iff (a = b) (by simp)
  | Except.error a, Except.error b => decidable_of_iff (a = b) (by simp)
  | Except.ok _, Except.error _ => isFalse (by simp)
  | Except.error _, Except.ok _ => isFalse (by simp)

/-- Modelled from the spec: the per-column configuration entry of
`columnConfigs` (required flag, dtype, default value, label flag); the
`CSVConfig` type is imported by src/readers.ts but not defined under
src/. -/
structure ColumnConfig where
  required : Bool := false
  dtype : Option DType := none
  defaultValue : Option CellValue := none
  isLabel : Bool := false
deriving DecidableEq, Repr

/-- Modelled from the spec: the `CSVConfig` configuration surface of
section 6, with its documented defaults; imported by src/readers.ts but
not defined under src/.  The delimiter is a single character, default
comma. -/
structure CSVConfig where
  hasHeader : Bool := true
  columnNames : Option (List String) := none
  columnConfigs : List (String × ColumnConfig) := []
  configuredColumnsOnly : Bool := false
  delimiter : Char := ','
deriving DecidableEq, Repr

/-- Modelled from the spec: the resolved per-column `ColumnSpec` of the
data model; `configured` records whether the column appeared in
`columnConfigs`, which `configuredColumnsOnly` filtering needs. -/
structure ColumnSpec where
  name : String
  required : Bool
  dtype : DType
  defaultValue : Option CellValue
  isLabel : Bool
  configured : Bool
deriving DecidableEq, Repr

/-- Modelled from the spec: the resolved `Schema` — ordered column specs
plus the resolved delimiter and header flag (and the
`configuredColumnsOnly` restriction applied when reporting columns). -/
structure Schema where
  columns : List ColumnSpec
  delimiter : Char
  hasHeader : Bool
  configuredOnly : Bool
deriving DecidableEq, Repr

/-- Modelled from the spec: the decoded row — a pair of ordered
name-to-typed-value mappings for the feature group and the label group. -/
structure DecodedRow where
  features : List (String × CellValue)
  labels : List (String × CellValue)
deriving DecidableEq, Repr

/-- Modelled from the spec: the fixed, documented bound on the number of
data rows sampled for type inference. -/
def inferenceSampleSize : Nat := 100

/-- Modelled from the spec: type inference for one column from its
sampled raw values — attempt coercion to Int, then Float, then Bool, in
that priority order; the first type that parses every sampled non-missing
value is chosen; missing (empty) cells do not disqualify a type; if no
value is supplied or all candidates fail, default to String. -/
def inferDType (vals : List String) : DType :=
  let nm := vals.filter (fun v => v ≠ "")
  if nm.isEmpty then DType.str
  else if nm.all (parsesAs DType.int) then DType.int
  else if nm.all (parsesAs DType.float) then DType.float
  else if nm.all (parsesAs DType.bool) then DType.bool
  else DType.str

/-- Modelled from the spec: the raw values a column with the given index
receives from the sampled tokenized rows; a row too short to reach the
index supplies no value. -/
def columnValues (sample : List (List String)) (i : Nat) : List String :=
  sample.filterMap (fun r => r.get? i)

/-- Modelled from the spec: merge the explicit `columnConfigs` entry for
one column over its name; columns without an explicit dtype get the
inferred type. -/
def mkColumnSpec (cfg : CSVConfig) (sample : List (List String)) (i : Nat)
    (name : String) : ColumnSpec :=
  match cfg.columnConfigs.lookup name with
  | some cc =>
    ColumnSpec.mk name cc.required (cc.dtype.getD (inferDType (columnValues sample i)))
      cc.defaultValue cc.isLabel true
  | none =>
    ColumnSpec.mk name false (inferDType (columnValues sample i)) none false false

/-- Modelled from the spec: column-name resolution — explicit
`columnNames` override the header; with a header and no override the
first logical line is tokenized for names; with no header and no
explicit names, resolution fails with a `ConfigError`
("missing column names"). -/
def resolveNames (cfg : CSVConfig) (lines : List (List Char)) :
    Except CSVError (List String) :=
  match cfg.columnNames with
  | some ns => Except.ok ns
  | none =>
    if cfg.hasHeader then
      match lines with
      | [] => Except.error (CSVError.configError "missing column names")
      | h :: _ =>
        match tokenizeLine cfg.delimiter h with
        | Except.ok ns => Except.ok ns
        | Except.error k => Except.error (CSVError.malformedRowError 0 k)
    else Except.error (CSVError.configError "missing column names")

/-- Modelled from the spec: the data lines of a pass — the header line
(when present) is dropped, and wholly-empty lines are skipped per the
default blank-line policy. -/
def dataLinesOf (hasHeader : Bool) (lines : List (List Char)) : List (List Char) :=
  (if hasHeader then lines.drop 1 else lines).filter (fun l => l ≠ [])

/-- Modelled from the spec: the Schema Resolver — determines column names,
merges per-column config, and infers unconfigured dtypes from a bounded
prefix of the data rows (rows that fail to tokenize supply no sample);
absent from src/. -/
def resolveSchema (cfg : CSVConfig) (content : List (List Char)) :
    Except CSVError Schema :=
  let lines := splitChunks content
  match resolveNames cfg lines with
  | Except.error e => Except.error e
  | Except.ok names =>
    let sample := ((dataLinesOf cfg.hasHeader lines).take inferenceSampleSize).filterMap
      (fun l => (tokenizeLine cfg.delimiter l).toOption)
    Except.ok (Schema.mk
      (names.enum.map (fun p => mkColumnSpec cfg sample p.1 p.2))
      cfg.delimiter cfg.hasHeader cfg.configuredColumnsOnly)

/-- Modelled from the spec: the fill value used for a missing cell in a
column that is not required and has no default. -/
def dtypeFill (t : DType) : CellValue :=
  match t with
  | DType.int => CellValue.intVal 0
  | DType.float => CellValue.floatVal 0
  | DType.bool => CellValue.boolVal false
  | DType.str => CellValue.strVal ""

/-- Modelled from the spec: decoding of one raw cell against its column
spec — a missing (empty) value uses the default when one exists, fails
with `RequiredColumnError` when the column is required with no default,
and otherwise takes the fill value; a present value is coerced to the
column dtype, failing with `TypeCoercionError` on parse failure. -/
def decodeCell (sp : ColumnSpec) (raw : String) : Except CSVError CellValue :=
  if raw = "" then
    match sp.defaultValue with
    | some d => Except.ok d
    | none =>
      if sp.required then Except.error (CSVError.requiredColumnError sp.name)
      else Except.ok (dtypeFill sp.dtype)
  else
    match sp.dtype with
    | DType.int =>
      match parseIntOpt raw with
      | some i => Except.ok (CellValue.intVal i)
      | none => Except.error (CSVError.typeCoercionError sp.name raw DType.int)
    | DType.float =>
      match parseFloatOpt raw with
      | some q => Except.ok (CellValue.floatVal q)
      | none => Except.error (CSVError.typeCoercionError sp.name raw DType.float)
    | DType.bool =>
      match parseBoolOpt raw with
      | some b => Except.ok (CellValue.boolVal b)
      | none => Except.error (CSVError.typeCoercionError sp.name raw DType.bool)
    | DType.str => Except.ok (CellValue.strVal raw)

/-- Decode every (column, raw value) pair in order, stopping at the first
per-cell failure. -/
def decodeCells : List (ColumnSpec × String) → Except CSVError (List (ColumnSpec × CellValue))
  | [] => Except.ok []
  | (sp, v) :: rest =>
    match decodeCell sp v with
    | Except.error e => Except.error e
    | Except.ok cv =>
      match decodeCells rest with
      | Except.error e => Except.error e
      | Except.ok cvs => Except.ok ((sp, cv) :: cvs)

/-- Modelled from the spec: assemble the decoded cells into the feature
and label mappings, preserving column order, restricted to configured
columns when `configuredColumnsOnly` is set. -/
def buildRow (schema : Schema) (cells : List (ColumnSpec × CellValue)) : DecodedRow :=
  let kept := if schema.configuredOnly then cells.filter (fun p => p.1.configured) else cells
  DecodedRow.mk
    ((kept.filter (fun p => !p.1.isLabel)).map (fun p => (p.1.name, p.2)))
    ((kept.filter (fun p => p.1.isLabel)).map (fun p => (p.1.name, p.2)))

/-- Modelled from the spec: the Row Decoder — given the schema, the line
index and the tokenized raw fields, fail with `MalformedRowError` naming
the line index and the expected and actual counts when the field count
differs from the resolved column count (no truncation or padding), and
otherwise decode each cell in column order; absent from src/. -/
def decodeRow (schema : Schema) (lineIndex : Nat) (fields : List String) :
    Except CSVError DecodedRow :=
  if fields.length ≠ schema.columns.length then
    Except.error (CSVError.malformedRowError lineIndex
      (MalformedKind.fieldCountMismatch schema.columns.length fields.length))
  else
    (decodeCells (schema.columns.zip fields)).map (buildRow schema)

/-- Modelled from the spec: tokenize one logical line and decode it; a
tokenizer failure is surfaced as a `MalformedRowError` carrying the line
index. -/
def decodeLine (schema : Schema) (lineIndex : Nat) (line : List Char) :
    Except CSVError DecodedRow :=
  match tokenizeLine schema.delimiter line with
  | Except.error k => Except.error (CSVError.malformedRowError lineIndex k)
  | Except.ok fields => decodeRow schema lineIndex fields

/-- Modelled from the spec: one full iteration pass — re-split the byte
content from the start, drop the header, and decode each data line
independently; per-row failures occupy that row's position without
affecting other rows. -/
def iteratePass (schema : Schema) (content : List (List Char)) :
    List (Except CSVError DecodedRow) :=
  (dataLinesOf schema.hasHeader (splitChunks content)).enum.map
    (fun p => decodeLine schema p.1 p.2)

/-- The `URLDataSource` constructed by src/readers.ts around a URL string
(the byte-fetching behaviour itself is an external collaborator). -/
structure URLDataSource where
  url : String
deriving DecidableEq, Repr

/-- The `CSVDataset` constructed by src/readers.ts from a data source and
a `CSVConfig`; the memoized schema cell is modelled from the spec
(resolution is lazy, so a fresh instance has no cached schema).  The
bytes the source yields on a pass are supplied explicitly to the
operations below, since fetching is external I/O. -/
structure CSVDataset where
  input : URLDataSource
  csvConfig : CSVConfig
  cachedSchema : Option Schema
deriving DecidableEq, Repr

/-- The factory of src/readers.ts: `csv(source, csvConfig = {})` wraps a
new `URLDataSource` over the source string and the configuration,
unchanged and unvalidated, into a new `CSVDataset`; the optional second
argument defaults to the empty configuration. -/
def csv (source : String) (csvConfig : Option CSVConfig) : CSVDataset :=
  CSVDataset.mk (URLDataSource.mk source) (csvConfig.getD {}) none

/-- Modelled from the spec: obtain the schema, resolving it on first use
and caching it; `content` is the byte-chunk sequence the source yields
for the pass.  Returns the result together with the updated dataset
state. -/
def CSVDataset.getSchema (d : CSVDataset) (content : List (List Char)) :
    Except CSVError Schema × CSVDataset :=
  match d.cachedSchema with
  | some s => (Except.ok s, d)
  | none =>
    match resolveSchema d.csvConfig content with
    | Except.ok s => (Except.ok s, CSVDataset.mk d.input d.csvConfig (some s))
    | Except.error e => (Except.error e, d)

/-- Modelled from the spec: the ordered column names a schema reports,
subject to the `configuredColumnsOnly` restriction. -/
def schemaColumnNames (s : Schema) : List String :=
  (if s.configuredOnly then s.columns.filter (fun c => c.configured) else s.columns).map
    (fun c => c.name)

/-- Modelled from the spec: the async `columnNames()` accessor — triggers
or reuses schema resolution and returns the resolved ordered names. -/
def CSVDataset.columnNames (d : CSVDataset) (content : List (List Char)) :
    Except CSVError (List String) × CSVDataset :=
  let r := d.getSchema content
  (r.1.map schemaColumnNames, r.2)

/-- Modelled from the spec: one iteration of the dataset — triggers or
reuses schema resolution, then re-runs splitting, tokenizing and decoding
from the start of the byte content; the outer failure is a fatal
schema-resolution error, inner failures are per-row. -/
def CSVDataset.iterate (d : CSVDataset) (content : List (List Char)) :
    Except CSVError (List (Except CSVError DecodedRow)) × CSVDataset :=
  let r := d.getSchema content
  (r.1.map (fun s => iteratePass s content), r.2)

/-! Helper lemmas about the Line Splitter. -/

theorem feedChunk_append (st : SplitState) (a b : List Char) :
    feedChunk st (a ++ b) = feedChunk (feedChunk st a) b := by
  simp [feedChunk, List.foldl_append]

theorem foldl_feedChunk_join (chunks : List (List Char)) (st : SplitState) :
    chunks.foldl feedChunk st = feedChunk st chunks.flatten := by
  induction chunks generalizing st with
  | nil => simp [feedChunk]
  | cons c cs ih => simp [List.flatten, ih, feedChunk_append]

theorem splitChunks_join (chunks : List (List Char)) :
    splitChunks chunks = splitChunks [chunks.flatten] := by
  simp [splitChunks, foldl_feedChunk_join, feedChunk]

theorem resolveSchema_congr (cfg : CSVConfig) (c1 c2 : List (List Char))
    (h : splitChunks c1 = splitChunks c2) :
    resolveSchema cfg c1 = resolveSchema cfg c2 := by
  unfold resolveSchema
  rw [h]

theorem iteratePass_congr (s : Schema) (c1 c2 : List (List Char))
    (h : splitChunks c1 = splitChunks c2) :
    iteratePass s c1 = iteratePass s c2 := by
  unfold iteratePass
  rw [h]

theorem iterate_congr (d : CSVDataset) (c1 c2 : List (List Char))
    (h : splitChunks c1 = splitChunks c2) :
    d.iterate c1 = d.iterate c2 := by
  unfold CSVDataset.iterate CSVDataset.getSchema
  rw [resolveSchema_congr d.csvConfig c1 c2 h]
  cases d.cachedSchema with
  | some s => simp [iteratePass_congr _ _ _ h]
  | none =>
    cases resolveSchema d.csvConfig c2 with
    | ok s => simp [iteratePass_congr _ _ _ h]
    | error e => rfl

/-- Claim C1: for every dataset and every way of splitting the byte
sequence into chunks, the decoded row sequence is the same as for the
whole sequence in one chunk — decoding is insensitive to chunk
granularity, quote state being tracked across chunk boundaries; in
particular the byte sequence `"val` | `ue",2\n` split at the boundary
inside the quoted field still yields the single row `["value","2"]`. -/
theorem claim1_chunk_insensitivity :
    (∀ (d : CSVDataset) (chunks : List (List Char)),
      d.iterate chunks = d.iterate [chunks.flatten]) ∧
    ((csv "u" (some (CSVConfig.mk false (some ["a", "b"]) [] false ','))).iterate
        ["\"val".toList, "ue\",2\n".toList]).1 =
      Except.ok [Except.ok (DecodedRow.mk
        [("a", CellValue.strVal "value"), ("b", CellValue.intVal 2)] [])] := by
  constructor
  · intro d chunks
    exact iterate_congr d chunks [chunks.flatten] (splitChunks_join chunks)
  · decide

/-! Helper lemmas about the Field Tokenizer. -/

theorem tokAux_inQuote_run (delim : Char) (s : List Char)
    (hs : ∀ c ∈ s, c ≠ '"') :
    ∀ (cur : List Char) (acc : List (List Char)) (rest : List Char),
      tokAux delim TokMode.inQuote cur acc (s ++ rest) =
        tokAux delim TokMode.inQuote (cur ++ s) acc rest := by
  induction s with
  | nil => intro cur acc rest; simp
  | cons c s ih =>
    intro cur acc rest
    have hc : ¬(c = '"') := hs c (List.mem_cons_self c s)
    have hs' : ∀ x ∈ s, x ≠ '"' := fun x hx => hs x (List.mem_cons_of_mem c hx)
    simp only [List.cons_append, tokAux, if_neg hc, List.append_eq]
    rw [ih hs' (cur ++ [c]) acc rest]
    simp

theorem tokAux_outside_run (delim : Char) (s : List Char)
    (hs : ∀ c ∈ s, c ≠ '"' ∧ c ≠ delim) :
    ∀ (cur : List Char) (acc : List (List Char)) (rest : List Char),
      tokAux delim TokMode.outside cur acc (s ++ rest) =
        tokAux delim TokMode.outside (cur ++ s) acc rest := by
  induction s with
  | nil => intro cur acc rest; simp
  | cons c s ih =>
    intro cur acc rest
    have hc : ¬(c = '"') := (hs c (List.mem_cons_self c s)).1
    have hd : ¬(c = delim) := (hs c (List.mem_cons_self c s)).2
    have hs' : ∀ x ∈ s, x ≠ '"' ∧ x ≠ delim := fun x hx => hs x (List.mem_cons_of_mem c hx)
    simp only [List.cons_append, tokAux, if_neg hc, if_neg hd, List.append_eq]
    rw [ih hs' (cur ++ [c]) acc rest]
    simp

/-- Claim C2: the Field Tokenizer returns the ordered raw fields such
that a field wholly wrapped in double quotes yields its inner content
verbatim (embedded delimiters and newlines included), a doubled
double-quote inside a quoted field decodes to one literal quote
character, and unquoted fields are taken verbatim with leading and
trailing whitespace preserved; in particular the line `"a,b\nc",3` with
delimiter `,` tokenizes to the fields `["a,b\nc", "3"]`. -/
theorem claim2_tokenizer_fields :
    (∀ (delim : Char) (s : List Char), (∀ c ∈ s, c ≠ '"') →
      tokenizeLine delim ('"' :: (s ++ ['"'])) = Except.ok [String.mk s]) ∧
    (∀ (delim : Char) (s1 s2 : List Char),
      (∀ c ∈ s1, c ≠ '"') → (∀ c ∈ s2, c ≠ '"') →
      tokenizeLine delim ('"' :: (s1 ++ '"' :: '"' :: (s2 ++ ['"']))) =
        Except.ok [String.mk (s1 ++ '"' :: s2)]) ∧
    (∀ (delim : Char) (s : List Char), (∀ c ∈ s, c ≠ '"' ∧ c ≠ delim) →
      tokenizeLine delim s = Except.ok [String.mk s]) ∧
    tokenizeLine ',' ("\"a,b\nc\",3".toList) = Except.ok ["a,b\nc", "3"] := by
  refine ⟨?_, ?_, ?_, by decide⟩
  · intro delim s hs
    simp only [tokenizeLine, tokAux, if_pos rfl]
    rw [tokAux_inQuote_run delim s hs [] [] ['"']]
    simp [tokAux, Except.map, String.mk]
  · intro delim s1 s2 h1 h2
    simp only [tokenizeLine, tokAux, if_pos rfl]
    rw [tokAux_inQuote_run delim s1 h1 [] [] ('"' :: '"' :: (s2 ++ ['"']))]
    simp only [tokAux, if_pos rfl]
    rw [tokAux_inQuote_run delim s2 h2 (([] ++ s1) ++ ['"']) [] ['"']]
    simp [tokAux, Except.map, String.mk]
  · intro delim s hs
    have h0 : s = s ++ [] := by simp
    rw [tokenizeLine, h0, tokAux_outside_run delim s hs [] [] []]
    simp [tokAux, Except.map, String.mk]

/-- Concrete instantiation of `claim2_tokenizer_fields`: a quoted field
with an embedded delimiter, a doubled quote, and an unquoted field with
surrounding whitespace. -/
theorem claim2_tokenizer_fields_witness :
    tokenizeLine ',' ('"' :: ("x,y\n".toList ++ ['"'])) = Except.ok [String.mk "x,y\n".toList] ∧
    tokenizeLine ',' ('"' :: ("a".toList ++ '"' :: '"' :: ("b".toList ++ ['"']))) =
      Except.ok [String.mk ("a".toList ++ '"' :: "b".toList)] ∧
    tokenizeLine ',' (" a b ".toList) = Except.ok [String.mk " a b ".toList] :=
  ⟨claim2_tokenizer_fields.1 ',' ("x,y\n".toList) (by decide),
   claim2_tokenizer_fields.2.1 ',' ("a".toList) ("b".toList) (by decide) (by decide),
   claim2_tokenizer_fields.2.2.1 ',' (" a b ".toList) (by decide)⟩

/-- Quote-state scan over one logical line, independent of the tokenizer
and of the delimiter: the mode in which the Field Tokenizer's quote
tracking ends.  A line in which a double quote opens a quoted field that
is never closed is exactly a line whose scan ends in the in-quote mode. -/
def quoteMode : TokMode → List Char → TokMode
  | m, [] => m
  | TokMode.outside, c :: rest =>
    quoteMode (if c = '"' then TokMode.inQuote else TokMode.outside) rest
  | TokMode.inQuote, c :: rest =>
    quoteMode (if c = '"' then TokMode.quoteSeen else TokMode.inQuote) rest
  | TokMode.quoteSeen, c :: rest =>
    quoteMode (if c = '"' then TokMode.inQuote else TokMode.outside) rest

theorem tokAux_error_of_quoteMode (delim : Char) :
    ∀ (l : List Char) (m : TokMode) (cur : List Char) (acc : List (List Char)),
      quoteMode m l = TokMode.inQuote →
      tokAux delim m cur acc l = Except.error MalformedKind.unterminatedQuote := by
  intro l
  induction l with
  | nil =>
    intro m cur acc hm
    simp only [quoteMode] at hm
    simp [tokAux, hm]
  | cons c rest ih =>
    intro m cur acc hm
    by_cases hc : c = '"'
    · cases m with
      | outside =>
        simp only [quoteMode, if_pos hc] at hm
        simp only [tokAux, if_pos hc]
        exact ih TokMode.inQuote cur acc hm
      | inQuote =>
        simp only [quoteMode, if_pos hc] at hm
        simp only [tokAux, if_pos hc]
        exact ih TokMode.quoteSeen cur acc hm
      | quoteSeen =>
        simp only [quoteMode, if_pos hc] at hm
        simp only [tokAux, if_pos hc]
        exact ih TokMode.inQuote (cur ++ ['"']) acc hm
    · by_cases hd : c = delim
      · cases m with
        | outside =>
          simp only [quoteMode, if_neg hc] at hm
          simp only [tokAux, if_neg hc, if_pos hd]
          exact ih TokMode.outside [] (acc ++ [cur]) hm
        | inQuote =>
          simp only [quoteMode, if_neg hc] at hm
          simp only [tokAux, if_neg hc]
          exact ih TokMode.inQuote (cur ++ [c]) acc hm
        | quoteSeen =>
          simp only [quoteMode, if_neg hc] at hm
          simp only [tokAux, if_neg hc, if_pos hd]
          exact ih TokMode.outside [] (acc ++ [cur]) hm
      · cases m with
        | outside =>
          simp only [quoteMode, if_neg hc] at hm
          simp only [tokAux, if_neg hc, if_neg hd]
          exact ih TokMode.outside (cur ++ [c]) acc hm
        | inQuote =>
          simp only [quoteMode, if_neg hc] at hm
          simp only [tokAux, if_neg hc]
          exact ih TokMode.inQuote (cur ++ [c]) acc hm
        | quoteSeen =>
          simp only [quoteMode, if_neg hc] at hm
          simp only [tokAux, if_neg hc, if_neg hd]
          exact ih TokMode.outside (cur ++ [c]) acc hm

/-- Claim C9: for every logical line in which a double quote opens a
quoted field that is never closed within the line (the quote-state scan,
which is independent of the Line Splitter and of the delimiter, ends in
the in-quote mode), the Field Tokenizer fails with the unterminated-quote
`MalformedRowError` kind; and the failure is surfaced per-row: in the
concrete two-record input `p,q\n"x,y\nz`, the first row still decodes
while the second yields the per-row error at its own position. -/
theorem claim9_unterminated_quote :
    (∀ (delim : Char) (line : List Char),
      quoteMode TokMode.outside line = TokMode.inQuote →
      tokenizeLine delim line = Except.error MalformedKind.unterminatedQuote) ∧
    ((csv "u" (some (CSVConfig.mk false (some ["a", "b"]) [] false ','))).iterate
        ["p,q\n\"x,y\nz".toList]).1 =
      Except.ok [Except.ok (DecodedRow.mk
        [("a", CellValue.strVal "p"), ("b", CellValue.strVal "q")] []),
        Except.error (CSVError.malformedRowError 1 MalformedKind.unterminatedQuote)] := by
  refine ⟨?_, by decide⟩
  intro delim line hm
  rw [tokenizeLine, tokAux_error_of_quoteMode delim line TokMode.outside [] [] hm]
  rfl

/-- Concrete instantiation of `claim9_unterminated_quote`: the line
`"value` opens a quote it never closes, and the tokenizer rejects it. -/
theorem claim9_unterminated_quote_witness :
    tokenizeLine ',' ("\"value".toList) = Except.error MalformedKind.unterminatedQuote :=
  claim9_unterminated_quote.1 ',' ("\"value".toList) (by decide)

/-! Helper lemmas about type inference. -/

theorem filter_self_idem {α : Type} (p : α → Bool) (l : List α) :
    (l.filter p).filter p = l.filter p := by
  simp [List.filter_filter]

theorem isEmpty_false_of_ne_nil {α : Type} {l : List α} (h : l ≠ []) :
    l.isEmpty = false := by
  cases l with
  | nil => exact absurd rfl h
  | cons a l => rfl

/-- Claim C3: the Schema Resolver samples a bounded prefix of data rows
and, for each unconfigured column, attempts coercion in the fixed
priority order Int, then Float, then Bool, choosing the first type that
parses every sampled non-missing value; missing (empty) cells do not
disqualify a type (inference only sees the non-missing values); if no
value is supplied or all candidates fail, the dtype is String; and a
header `a,b,c` with data row `1,2.5,true` infers Int, Float and Bool for
the three columns. -/
theorem claim3_type_inference :
    (∀ vals : List String,
      inferDType vals = inferDType (vals.filter (fun v => v ≠ ""))) ∧
    (∀ vals : List String, vals.all (fun v => v = "") = true →
      inferDType vals = DType.str) ∧
    (∀ vals : List String,
      (vals.filter (fun v => v ≠ "") ≠ [] →
        (vals.filter (fun v => v ≠ "")).all (parsesAs DType.int) = true →
        inferDType vals = DType.int) ∧
      (vals.filter (fun v => v ≠ "") ≠ [] →
        (vals.filter (fun v => v ≠ "")).all (parsesAs DType.int) = false →
        (vals.filter (fun v => v ≠ "")).all (parsesAs DType.float) = true →
        inferDType vals = DType.float) ∧
      (vals.filter (fun v => v ≠ "") ≠ [] →
        (vals.filter (fun v => v ≠ "")).all (parsesAs DType.int) = false →
        (vals.filter (fun v => v ≠ "")).all (parsesAs DType.float) = false →
        (vals.filter (fun v => v ≠ "")).all (parsesAs DType.bool) = true →
        inferDType vals = DType.bool) ∧
      ((vals.filter (fun v => v ≠ "")).all (parsesAs DType.int) = false →
        (vals.filter (fun v => v ≠ "")).all (parsesAs DType.float) = false →
        (vals.filter (fun v => v ≠ "")).all (parsesAs DType.bool) = false →
        inferDType vals = DType.str)) ∧
    (∀ (cfg : CSVConfig) (sample : List (List String)) (i : Nat) (name : String),
      cfg.columnConfigs.lookup name = none →
      mkColumnSpec cfg sample i name =
        ColumnSpec.mk name false (inferDType (columnValues sample i)) none false false) ∧
    resolveSchema {} ["a,b,c\n1,2.5,true\n".toList] =
      Except.ok (Schema.mk
        [ColumnSpec.mk "a" false DType.int none false false,
         ColumnSpec.mk "b" false DType.float none false false,
         ColumnSpec.mk "c" false DType.bool none false false] ',' true false) := by
  refine ⟨?_, ?_, ?_, ?_, by decide⟩
  · intro vals
    simp only [inferDType]
    rw [filter_self_idem]
  · intro vals h
    have hnil : vals.filter (fun v => v ≠ "") = [] := by
      rw [List.filter_eq_nil_iff]
      intro a ha
      have ha' := List.all_eq_true.mp h a ha
      simp at ha' ⊢
      exact ha'
    simp only [inferDType]
    rw [hnil]
    simp
  · intro vals
    refine ⟨?_, ?_, ?_, ?_⟩
    · intro h1 h2
      have h1' : (vals.filter (fun v => v ≠ "")).isEmpty = false :=
        isEmpty_false_of_ne_nil h1
      simp only [inferDType]
      rw [h1', h2]
      simp
    · intro h1 h2 h3
      have h1' : (vals.filter (fun v => v ≠ "")).isEmpty = false :=
        isEmpty_false_of_ne_nil h1
      simp only [inferDType]
      rw [h1', h2, h3]
      simp
    · intro h1 h2 h3 h4
      have h1' : (vals.filter (fun v => v ≠ "")).isEmpty = false :=
        isEmpty_false_of_ne_nil h1
      simp only [inferDType]
      rw [h1', h2, h3, h4]
      simp
    · intro h2 h3 h4
      by_cases h1 : vals.filter (fun v => v ≠ "") = []
      · simp only [inferDType]
        rw [h1]
        simp
      · have h1' : (vals.filter (fun v => v ≠ "")).isEmpty = false :=
          isEmpty_false_of_ne_nil h1
        simp only [inferDType]
        rw [h1', h2, h3, h4]
        simp
  · intro cfg sample i name h
    simp [mkColumnSpec, h]

/-- Concrete instantiation of `claim3_type_inference`: the priority order
on sampled values with missing cells interspersed. -/
theorem claim3_type_inference_witness :
    inferDType ["1", "", "2"] = DType.int ∧
    inferDType ["1", "2.5", ""] = DType.float ∧
    inferDType ["", "true", "0"] = DType.bool ∧
    inferDType ["x", ""] = DType.str ∧
    inferDType ["", ""] = DType.str ∧
    mkColumnSpec {} [["7"]] 0 "a" =
      ColumnSpec.mk "a" false DType.int none false false :=
  ⟨(claim3_type_inference.2.2.1 ["1", "", "2"]).1 (by decide) (by decide),
   (claim3_type_inference.2.2.1 ["1", "2.5", ""]).2.1 (by decide) (by decide) (by decide),
   (claim3_type_inference.2.2.1 ["", "true", "0"]).2.2.1 (by decide) (by decide)
     (by decide) (by decide),
   (claim3_type_inference.2.2.1 ["x", ""]).2.2.2 (by decide) (by decide) (by decide),
   claim3_type_inference.2.1 ["", ""] (by decide),
   claim3_type_inference.2.2.2.1 {} [["7"]] 0 "a" (by decide)⟩

/-! Memoization, restartability and error-path theorems. -/

theorem resolveSchema_missing_names (cfg : CSVConfig) (content : List (List Char))
    (h1 : cfg.hasHeader = false) (h2 : cfg.columnNames = none) :
    resolveSchema cfg content = Except.error (CSVError.configError "missing column names") := by
  simp [resolveSchema, resolveNames, h1, h2]

/-- Claim C4: the schema is resolved at most once and cached — calling
the column-name accessor on the dataset state returned by a previous call
gives the same result and leaves the state unchanged, and once a schema
is cached the accessor returns its names without reading the byte
content at all (the result is the same for any two contents). -/
theorem claim4_columnNames_memoized :
    (∀ (d : CSVDataset) (content : List (List Char)),
      ((d.columnNames content).2).columnNames content =
        ((d.columnNames content).1, (d.columnNames content).2)) ∧
    (∀ (d : CSVDataset) (s : Schema) (c1 c2 : List (List Char)),
      d.cachedSchema = some s →
      d.columnNames c1 = (Except.ok (schemaColumnNames s), d) ∧
      d.columnNames c1 = d.columnNames c2) := by
  constructor
  · intro d content
    cases hc : d.cachedSchema with
    | some s => simp [CSVDataset.columnNames, CSVDataset.getSchema, hc]
    | none =>
      cases hr : resolveSchema d.csvConfig content with
      | ok s => simp [CSVDataset.columnNames, CSVDataset.getSchema, hc, hr]
      | error e => simp [CSVDataset.columnNames, CSVDataset.getSchema, hc, hr]
  · intro d s c1 c2 h
    constructor <;> simp [CSVDataset.columnNames, CSVDataset.getSchema, Except.map, h]

/-- Concrete instantiation of `claim4_columnNames_memoized`: a dataset
holding a cached schema answers from the cache regardless of the byte
content. -/
theorem claim4_columnNames_memoized_witness :
    (CSVDataset.mk (URLDataSource.mk "u") {} (some (Schema.mk [] ',' true false))).columnNames
        ["x".toList] =
      (Except.ok (schemaColumnNames (Schema.mk [] ',' true false)),
       CSVDataset.mk (URLDataSource.mk "u") {} (some (Schema.mk [] ',' true false))) ∧
    (CSVDataset.mk (URLDataSource.mk "u") {} (some (Schema.mk [] ',' true false))).columnNames
        ["x".toList] =
      (CSVDataset.mk (URLDataSource.mk "u") {} (some (Schema.mk [] ',' true false))).columnNames
        ["y,z".toList] :=
  claim4_columnNames_memoized.2
    (CSVDataset.mk (URLDataSource.mk "u") {} (some (Schema.mk [] ',' true false)))
    (Schema.mk [] ',' true false) ["x".toList] ["y,z".toList] rfl

/-- Claim C5: iterating the dataset twice yields identical row sequences
(the byte source replays the same content, modelled by passing the same
chunk list): iterating the state returned by a previous iteration gives
the same result and state; with a cached schema each pass re-runs
splitting, tokenizing and decoding fresh from the content while reusing
the cached schema; and each pass is the pure per-line map of
`decodeLine` — decoding a row is a function of the schema and that raw
line only. -/
theorem claim5_restartable :
    (∀ (d : CSVDataset) (content : List (List Char)),
      ((d.iterate content).2).iterate content =
        ((d.iterate content).1, (d.iterate content).2)) ∧
    (∀ (d : CSVDataset) (s : Schema) (content : List (List Char)),
      d.cachedSchema = some s →
      d.iterate content = (Except.ok (iteratePass s content), d)) ∧
    (∀ (s : Schema) (content : List (List Char)),
      iteratePass s content =
        (dataLinesOf s.hasHeader (splitChunks content)).enum.map
          (fun p => decodeLine s p.1 p.2)) := by
  refine ⟨?_, ?_, fun s content => rfl⟩
  · intro d content
    cases hc : d.cachedSchema with
    | some s => simp [CSVDataset.iterate, CSVDataset.getSchema, hc]
    | none =>
      cases hr : resolveSchema d.csvConfig content with
      | ok s => simp [CSVDataset.iterate, CSVDataset.getSchema, hc, hr]
      | error e => simp [CSVDataset.iterate, CSVDataset.getSchema, hc, hr]
  · intro d s content h
    simp [CSVDataset.iterate, CSVDataset.getSchema, Except.map, h]

/-- Concrete instantiation of `claim5_restartable`: a dataset with a
cached schema re-runs the pass over the supplied content and leaves its
state untouched. -/
theorem claim5_restartable_witness :
    (CSVDataset.mk (URLDataSource.mk "u") {} (some (Schema.mk [] ',' false false))).iterate [] =
      (Except.ok (iteratePass (Schema.mk [] ',' false false) []),
       CSVDataset.mk (URLDataSource.mk "u") {} (some (Schema.mk [] ',' false false))) :=
  claim5_restartable.2.1
    (CSVDataset.mk (URLDataSource.mk "u") {} (some (Schema.mk [] ',' false false)))
    (Schema.mk [] ',' false false) [] rfl

/-- Claim C6: with `hasHeader` false and no explicit `columnNames`,
schema resolution fails with the `ConfigError` "missing column names";
the error is surfaced immediately by both the column-name accessor and
iteration, aborts the whole dataset (the outer result is the error, no
rows are produced), and no partial schema is cached. -/
theorem claim6_missing_column_names :
    ∀ (cfg : CSVConfig) (content : List (List Char)) (inp : URLDataSource),
      cfg.hasHeader = false → cfg.columnNames = none →
      resolveSchema cfg content = Except.error (CSVError.configError "missing column names") ∧
      (CSVDataset.mk inp cfg none).iterate content =
        (Except.error (CSVError.configError "missing column names"),
         CSVDataset.mk inp cfg none) ∧
      (CSVDataset.mk inp cfg none).columnNames content =
        (Except.error (CSVError.configError "missing column names"),
         CSVDataset.mk inp cfg none) := by
  intro cfg content inp h1 h2
  have hr := resolveSchema_missing_names cfg content h1 h2
  refine ⟨hr, ?_, ?_⟩ <;>
    simp [CSVDataset.iterate, CSVDataset.columnNames, CSVDataset.getSchema, Except.map, hr]

/-- Concrete instantiation of `claim6_missing_column_names`. -/
theorem claim6_missing_column_names_witness :
    resolveSchema (CSVConfig.mk false none [] false ',') ["a,b\n1,2\n".toList] =
      Except.error (CSVError.configError "missing column names") :=
  (claim6_missing_column_names (CSVConfig.mk false none [] false ',')
    ["a,b\n1,2\n".toList] (URLDataSource.mk "u") rfl rfl).1

/-- Claim C7: a raw line whose field count differs from the resolved
column count fails with `MalformedRowError` carrying the line index and
the expected and actual counts — never a truncated or padded row — and
iteration never modifies a dataset whose schema is already cached, so
per-row failures cannot corrupt the cached schema. -/
theorem claim7_field_count_mismatch :
    (∀ (schema : Schema) (idx : Nat) (fields : List String),
      fields.length ≠ schema.columns.length →
      decodeRow schema idx fields = Except.error (CSVError.malformedRowError idx
        (MalformedKind.fieldCountMismatch schema.columns.length fields.length))) ∧
    (∀ (d : CSVDataset) (s : Schema) (content : List (List Char)),
      d.cachedSchema = some s → (d.iterate content).2 = d) := by
  constructor
  · intro schema idx fields h
    simp [decodeRow, h]
  · intro d s content h
    simp [CSVDataset.iterate, CSVDataset.getSchema, Except.map, h]

/-- Concrete instantiation of `claim7_field_count_mismatch`: two fields
against a one-column schema, and a cached dataset left intact. -/
theorem claim7_field_count_mismatch_witness :
    decodeRow (Schema.mk [ColumnSpec.mk "a" false DType.str none false false] ',' false false)
        3 ["x", "y"] =
      Except.error (CSVError.malformedRowError 3 (MalformedKind.fieldCountMismatch 1 2)) ∧
    ((CSVDataset.mk (URLDataSource.mk "u") {}
        (some (Schema.mk [] ',' false false))).iterate ["x".toList]).2 =
      CSVDataset.mk (URLDataSource.mk "u") {} (some (Schema.mk [] ',' false false)) :=
  ⟨claim7_field_count_mismatch.1
      (Schema.mk [ColumnSpec.mk "a" false DType.str none false false] ',' false false)
      3 ["x", "y"] (by decide),
   claim7_field_count_mismatch.2
      (CSVDataset.mk (URLDataSource.mk "u") {} (some (Schema.mk [] ',' false false)))
      (Schema.mk [] ',' false false) ["x".toList] rfl⟩

/-- Claim C8: a missing (empty) raw value fails with
`RequiredColumnError` naming the column exactly when the column is
required and has no default; when a default exists it is used; when the
column is neither required nor defaulted the fill value is used (no
error); and at row level the error surfaces naming the column. -/
theorem claim8_required_default :
    (∀ sp : ColumnSpec, sp.required = true → sp.defaultValue = none →
      decodeCell sp "" = Except.error (CSVError.requiredColumnError sp.name)) ∧
    (∀ (sp : ColumnSpec) (dv : CellValue), sp.defaultValue = some dv →
      decodeCell sp "" = Except.ok dv) ∧
    (∀ sp : ColumnSpec, sp.required = false → sp.defaultValue = none →
      decodeCell sp "" = Except.ok (dtypeFill sp.dtype)) ∧
    decodeRow (Schema.mk [ColumnSpec.mk "x" true DType.str none false false] ',' false false)
        0 [""] =
      Except.error (CSVError.requiredColumnError "x") := by
  refine ⟨?_, ?_, ?_, by decide⟩
  · intro sp h1 h2
    simp [decodeCell, h1, h2]
  · intro sp dv h
    simp [decodeCell, h]
  · intro sp h1 h2
    simp [decodeCell, h1, h2]

/-- Concrete instantiation of `claim8_required_default`: a required
column with no default rejects the missing value; a defaulted column
takes its default; an optional column takes the fill value. -/
theorem claim8_required_default_witness :
    decodeCell (ColumnSpec.mk "r" true DType.int none false false) "" =
      Except.error (CSVError.requiredColumnError "r") ∧
    decodeCell (ColumnSpec.mk "d" true DType.int (some (CellValue.intVal 7)) false false) "" =
      Except.ok (CellValue.intVal 7) ∧
    decodeCell (ColumnSpec.mk "o" false DType.int none false false) "" =
      Except.ok (dtypeFill DType.int) :=
  ⟨claim8_required_default.1 (ColumnSpec.mk "r" true DType.int none false false) rfl rfl,
   claim8_required_default.2.1
     (ColumnSpec.mk "d" true DType.int (some (CellValue.intVal 7)) false false)
     (CellValue.intVal 7) rfl,
   claim8_required_default.2.2.1 (ColumnSpec.mk "o" false DType.int none false false) rfl rfl⟩

/-- Claim C10: the factory `csv(source, config)` returns (totally,
performing no I/O and no validation) a new `CSVDataset` wrapping a new
`URLDataSource` over the source string with the configuration passed
through unchanged and no schema resolved yet; omitting the argument is
the same as passing the empty configuration; and an invalid
configuration (`hasHeader` false, no `columnNames`) does not fail at the
call site — the error surfaces only on later schema resolution. -/
theorem claim10_csv_factory :
    (∀ (source : String) (cfg : CSVConfig),
      csv source (some cfg) = CSVDataset.mk (URLDataSource.mk source) cfg none) ∧
    (∀ source : String, csv source none = csv source (some {})) ∧
    (∀ (source : String) (cfg : CSVConfig) (content : List (List Char)),
      cfg.hasHeader = false → cfg.columnNames = none →
      csv source (some cfg) = CSVDataset.mk (URLDataSource.mk source) cfg none ∧
      ((csv source (some cfg)).iterate content).1 =
        Except.error (CSVError.configError "missing column names")) := by
  refine ⟨fun source cfg => rfl, fun source => rfl, ?_⟩
  intro source cfg content h1 h2
  refine ⟨rfl, ?_⟩
  have hr := resolveSchema_missing_names cfg content h1 h2
  simp [csv, CSVDataset.iterate, CSVDataset.getSchema, Except.map, hr]

/-- Concrete instantiation of `claim10_csv_factory`: the factory accepts
a configuration missing the column names and the failure only appears
when the schema is resolved during iteration. -/
theorem claim10_csv_factory_witness :
    csv "url" (some (CSVConfig.mk false none [] false ',')) =
      CSVDataset.mk (URLDataSource.mk "url") (CSVConfig.mk false none [] false ',') none ∧
    ((csv "url" (some (CSVConfig.mk false none [] false ','))).iterate ["1,2\n".toList]).1 =
      Except.error (CSVError.configError "missing column names") :=
  claim10_csv_factory.2.2 "url" (CSVConfig.mk false none [] false ',') ["1,2\n".toList] rfl rfl

end TfData


